import Mathlib

/-!
Verification development for the chat streaming core of the coreoutline UI.

The embedding models, from the TypeScript source:
- the conversation entry record and orchestrator state of ChatInterface;
- the read loop of streamAIResponse over decoded stream fragments, with its
  sentinel handling ([DONE], ERROR:, the end-of-text marker) and error recovery;
- handleSendMessage / handleSend (with the ChatInput guard) and clearChat;
- the two effects of ChatMessage implementing the typewriter reveal.

JS strings are modelled as lists of characters.
-/

namespace CoreOutline

/-- Text is a list of characters (a JS string is a sequence of code units). -/
abbrev Str := List Char

/-- Whether p occurs at the start of s (JS String.startsWith). -/
def isPrefixL : Str → Str → Bool
  | [], _ => true
  | _ :: _, [] => false
  | p :: ps, c :: cs => p == c && isPrefixL ps cs

/-- Whether pat occurs as a contiguous substring of s (JS String.includes). -/
def hasSubstr (pat : Str) : Str → Bool
  | [] => pat.isEmpty
  | c :: cs => isPrefixL pat (c :: cs) || hasSubstr pat cs

/-- The stream-termination sentinel checked with includes in the read loop. -/
def doneL : Str := "[DONE]".toList

/-- The upstream-error marker checked with startsWith in the read loop. -/
def errL : Str := "ERROR:".toList

/-- The end-of-text sentinel removed from every chunk. -/
def eotL : Str := "<|endoftext|>".toList

/-- Scan for stripEOT. The fuel argument only bounds recursion depth so the
definition is structurally recursive and evaluates by kernel reduction; every
step consumes at least one character, so fuel = length never runs out. -/
def stripEOTAux : Nat → Str → Str
  | _, [] => []
  | 0, s => s
  | fuel + 1, c :: cs =>
    if isPrefixL eotL (c :: cs) then stripEOTAux fuel (cs.drop (eotL.length - 1))
    else c :: stripEOTAux fuel cs

/-- Remove every occurrence of the end-of-text sentinel, scanning left to
right without rescanning removed regions, as the global-regex replace with an
empty replacement does in the source. -/
def stripEOT (s : Str) : Str := stripEOTAux s.length s

/-- A conversation entry: the Message record of ChatInterface. -/
structure Message where
  id : Nat
  content : Str
  isUser : Bool
  isStreaming : Bool
deriving DecidableEq, Repr

/-- Orchestrator state: the conversation log, the loading flag, and the
toast notifications surfaced so far (their description texts, in order). -/
structure ChatState where
  messages : List Message
  isLoading : Bool
  toasts : List Str
deriving DecidableEq, Repr

/-- A fetch response for the streaming endpoint: status information, whether
a readable body is present, and the decoded text fragments it will yield. -/
structure StreamResponse where
  ok : Bool
  status : Nat
  statusText : Str
  hasBody : Bool
  fragments : List Str
deriving DecidableEq, Repr

/-- A thrown JS error: a TypeError or a plain Error, with its message. -/
inductive JsError where
  | typeError (msg : Str)
  | error (msg : Str)
deriving DecidableEq, Repr

/-- Result of the fetch call: a response, or a transport-level rejection. -/
inductive FetchResult where
  | success (resp : StreamResponse)
  | failure (e : JsError)
deriving DecidableEq, Repr

/-- How the read loop of streamAIResponse ended: normally (stream exhausted
or a [DONE] chunk), or by throwing an upstream error message. -/
inductive LoopResult where
  | finished
  | errored (msg : Str)
deriving DecidableEq, Repr

/-- Append cleaned text to the in-flight assistant entry: the setMessages map
in the read loop of streamAIResponse. Only the entry with the given id has its
content extended; every other entry is returned unchanged. -/
def appendToEntry (aiId : Nat) (cleaned : Str) (msgs : List Message) : List Message :=
  msgs.map fun m => if m.id = aiId then { m with content := m.content ++ cleaned } else m

/-- The read loop of streamAIResponse over the decoded fragments, branch for
branch: skip an empty chunk; break on a chunk containing [DONE]; strip the
end-of-text sentinel; append a non-empty residue to the assistant entry; then
throw on a chunk starting with ERROR:, carrying chunk.slice(7) as message.
Note the error check follows the append, exactly as in the source. -/
def processFragments (aiId : Nat) : List Str → List Message → List Message × LoopResult
  | [], msgs => (msgs, .finished)
  | chunk :: rest, msgs =>
    if chunk.isEmpty then processFragments aiId rest msgs
    else if hasSubstr doneL chunk then (msgs, .finished)
    else
      let cleaned := stripEOT chunk
      let msgs1 := if cleaned.isEmpty then msgs else appendToEntry aiId cleaned msgs
      if isPrefixL errL chunk then (msgs1, .errored (chunk.drop 7))
      else processFragments aiId rest msgs1

/-- Mark the assistant entry as no longer streaming: the setMessages map run
after the read loop completes. -/
def finalizeStreaming (aiId : Nat) (msgs : List Message) : List Message :=
  msgs.map fun m => if m.id = aiId then { m with isStreaming := false } else m

def fetchL : Str := "fetch".toList

def connectBase : Str := "Failed to connect to the server. Please check:".toList

def connectBullets : Str :=
  "\n• Is the server running on port 6000?\n• Check CORS configuration\n• Verify the server URL".toList

/-- The toast description composed in the catch block of streamAIResponse:
a TypeError whose message mentions fetch gets the connection hint text,
any other Error surfaces its own message. -/
def recoveryMessage : JsError → Str
  | .typeError m => if hasSubstr fetchL m then connectBase ++ connectBullets else m
  | .error m => m

/-- The catch block of streamAIResponse: remove the in-flight assistant entry
from the log, surface exactly one toast, and re-enable input. -/
def errorRecovery (aiId : Nat) (e : JsError) (st : ChatState) : ChatState :=
  { messages := st.messages.filter fun m => m.id != aiId
    isLoading := false
    toasts := st.toasts ++ [recoveryMessage e] }

/-- Message of the Error thrown when response.ok is false. -/
def statusErrorMessage (status : Nat) (statusText : Str) : Str :=
  "Server responded with status: ".toList ++ (toString status).toList ++ [' '] ++ statusText

/-- Message of the Error thrown when the response has no readable body. -/
def nullBodyMessage : Str := "Response body is null - streaming not supported".toList

/-- streamAIResponse: on a transport rejection or a thrown error the catch
block runs; otherwise the read loop consumes the fragments and, on normal
completion, the assistant entry is finalized and loading ends. -/
def streamAIResponse (fr : FetchResult) (aiId : Nat) (st : ChatState) : ChatState :=
  match fr with
  | .failure e => errorRecovery aiId e st
  | .success resp =>
    if resp.ok = false then
      errorRecovery aiId (.error (statusErrorMessage resp.status resp.statusText)) st
    else if resp.hasBody = false then
      errorRecovery aiId (.error nullBodyMessage) st
    else
      match processFragments aiId resp.fragments st.messages with
      | (msgs, .finished) => { st with messages := finalizeStreaming aiId msgs, isLoading := false }
      | (msgs, .errored m) => errorRecovery aiId (.error m) { st with messages := msgs }

/-- The user entry appended by handleSendMessage (id from Date.now()). -/
def mkUserMessage (now : Nat) (content : Str) : Message := ⟨now, content, true, false⟩

/-- The assistant placeholder appended by handleSendMessage: empty content,
streaming, id Date.now() + 1. -/
def mkAiMessage (now : Nat) : Message := ⟨now + 1, [], false, true⟩

/-- The two appends performed by handleSendMessage before the request. -/
def submitState (content : Str) (now : Nat) (st : ChatState) : ChatState :=
  { st with messages := st.messages ++ [mkUserMessage now content, mkAiMessage now] }

/-- handleSendMessage: append the user entry and the streaming assistant
placeholder, then run streamAIResponse against the placeholder id. -/
def handleSendMessage (content : Str) (now : Nat) (fr : FetchResult) (st : ChatState) : ChatState :=
  streamAIResponse fr (now + 1) (submitState content now st)

/-- ASCII whitespace stripped by the JS trim call on the input text. -/
def wsL : Str := [' ', '\t', '\n', '\r', '\x0b', '\x0c']

def isWs (c : Char) : Bool := wsL.contains c

/-- JS String.trim, modelled over ASCII whitespace. -/
def trim (s : Str) : Str := ((s.dropWhile isWs).reverse.dropWhile isWs).reverse

/-- handleSend of ChatInput: forward the trimmed text only when it is
non-empty and no turn is loading; otherwise do nothing. -/
def handleSend (input : Str) (now : Nat) (fr : FetchResult) (st : ChatState) : ChatState :=
  if (trim input).isEmpty = false ∧ st.isLoading = false then
    handleSendMessage (trim input) now fr st
  else st

def clearChatToast : Str := "All messages have been removed.".toList

/-- clearChat: empty the log and surface the cleared toast. -/
def clearChat (st : ChatState) : ChatState :=
  { st with messages := [], toasts := st.toasts ++ [clearChatToast] }

/-- The mounted component state: no messages, not loading, no toasts. -/
def initialState : ChatState := ⟨[], false, []⟩

/-- Local state of ChatMessage: the revealed text and the reveal index. -/
structure TWState where
  displayedText : Str
  currentIndex : Nat
deriving DecidableEq, Repr

/-- First effect of ChatMessage, run whenever message, isStreaming or isUser
changes: while a non-user message is streaming it resets the reveal to zero;
otherwise it shows the full text. -/
def twOnProps (message : Str) (isStreaming isUser : Bool) (s : TWState) : TWState :=
  if isStreaming = true ∧ isUser = false then ⟨[], 0⟩
  else { s with displayedText := message }

/-- Second effect of ChatMessage, one timer tick: while a non-user message is
streaming and the reveal index has not caught up, reveal one more character. -/
def twTick (message : Str) (isStreaming isUser : Bool) (s : TWState) : TWState :=
  if isStreaming = true ∧ isUser = false ∧ s.currentIndex < message.length then
    ⟨message.take (s.currentIndex + 1), s.currentIndex + 1⟩
  else s

/-- Text handed to the markdown renderer for an assistant entry. -/
def renderedText (message : Str) (isStreaming : Bool) (s : TWState) : Str :=
  if isStreaming then s.displayedText else message

/-- Number of entries currently marked streaming. -/
def countStreaming (msgs : List Message) : Nat := (msgs.filter fun m => m.isStreaming).length

/-- Specification predicate: every streaming entry carries the given id. -/
def streamOnly (aiId : Nat) (msgs : List Message) : Prop :=
  ∀ m ∈ msgs, m.isStreaming = true → m.id = aiId

/-- Specification predicate: the fetch result makes the turn end in an error
(transport failure, bad status, missing body, or an ERROR: fragment). -/
def turnErrors (aiId : Nat) (msgs : List Message) : FetchResult → Bool
  | .failure _ => true
  | .success resp =>
    if resp.ok = false then true
    else if resp.hasBody = false then true
    else
      match (processFragments aiId resp.fragments msgs).2 with
      | .finished => false
      | .errored _ => true

/-- Specification helper: the conversation log at the moment the turn's error
is raised. -/
def messagesAtError (aiId : Nat) (fr : FetchResult) (msgs : List Message) : List Message :=
  match fr with
  | .failure _ => msgs
  | .success resp =>
    if resp.ok = false then msgs
    else if resp.hasBody = false then msgs
    else (processFragments aiId resp.fragments msgs).1

/-- States reachable at turn boundaries: the initial state, closed under the
guarded submit path of ChatInput, the suggestion-click path (only rendered on
an empty log), and clearing the chat. -/
inductive Reachable : ChatState → Prop where
  | init : Reachable initialState
  | send (input : Str) (now : Nat) (fr : FetchResult) {st : ChatState} :
      Reachable st → Reachable (handleSend input now fr st)
  | suggestion (q : Str) (now : Nat) (fr : FetchResult) {st : ChatState} :
      Reachable st → st.messages = [] → Reachable (handleSendMessage q now fr st)
  | clear {st : ChatState} : Reachable st → Reachable (clearChat st)

/-- Conversation logs observable at any instant: a turn-boundary log, the log
right after the two submit appends, or the log after the read loop has
consumed any prefix of the fragments. -/
inductive ReachableLog : List Message → Prop where
  | boundary {st : ChatState} : Reachable st → ReachableLog st.messages
  | midSubmit {st : ChatState} (content : Str) (now : Nat) :
      Reachable st → ReachableLog (submitState content now st).messages
  | midStream {st : ChatState} (content : Str) (now : Nat) (frags : List Str) (k : Nat) :
      Reachable st →
      ReachableLog (processFragments (now + 1) (frags.take k) (submitState content now st).messages).1

/-! Helper lemmas about the entry-update maps. -/

lemma appendToEntry_cons (aiId : Nat) (t : Str) (m : Message) (ms : List Message) :
    appendToEntry aiId t (m :: ms)
      = (if m.id = aiId then { m with content := m.content ++ t } else m)
        :: appendToEntry aiId t ms := rfl

lemma appendToEntry_nil_text (aiId : Nat) (msgs : List Message) :
    appendToEntry aiId [] msgs = msgs := by
  induction msgs with
  | nil => rfl
  | cons m ms ih =>
    rw [appendToEntry_cons, ih]
    by_cases hm : m.id = aiId
    · rw [if_pos hm]; simp
    · rw [if_neg hm]

lemma appendToEntry_comp (aiId : Nat) (a b : Str) (msgs : List Message) :
    appendToEntry aiId b (appendToEntry aiId a msgs) = appendToEntry aiId (a ++ b) msgs := by
  induction msgs with
  | nil => rfl
  | cons m ms ih =>
    by_cases hm : m.id = aiId
    · simp [appendToEntry_cons, hm, ih, List.append_assoc]
    · simp [appendToEntry_cons, hm, ih]

lemma appendToEntry_fresh (aiId : Nat) (t : Str) (msgs : List Message)
    (h : ∀ m ∈ msgs, m.id ≠ aiId) :
    appendToEntry aiId t msgs = msgs := by
  induction msgs with
  | nil => rfl
  | cons m ms ih =>
    rw [appendToEntry_cons, if_neg (h m (List.mem_cons_self m ms)),
      ih fun x hx => h x (List.mem_cons_of_mem _ hx)]

lemma finalizeStreaming_cons (aiId : Nat) (m : Message) (ms : List Message) :
    finalizeStreaming aiId (m :: ms)
      = (if m.id = aiId then { m with isStreaming := false } else m)
        :: finalizeStreaming aiId ms := rfl

lemma finalizeStreaming_append (aiId : Nat) (l1 l2 : List Message) :
    finalizeStreaming aiId (l1 ++ l2) = finalizeStreaming aiId l1 ++ finalizeStreaming aiId l2 := by
  simp [finalizeStreaming]

lemma finalizeStreaming_fresh (aiId : Nat) (msgs : List Message)
    (h : ∀ m ∈ msgs, m.id ≠ aiId) :
    finalizeStreaming aiId msgs = msgs := by
  induction msgs with
  | nil => rfl
  | cons m ms ih =>
    rw [finalizeStreaming_cons, if_neg (h m (List.mem_cons_self m ms)),
      ih fun x hx => h x (List.mem_cons_of_mem _ hx)]

lemma appendToEntry_append (aiId : Nat) (t : Str) (l1 l2 : List Message) :
    appendToEntry aiId t (l1 ++ l2) = appendToEntry aiId t l1 ++ appendToEntry aiId t l2 := by
  simp [appendToEntry]

/-! Helper lemmas about the read loop. -/

lemma processFragments_nil (aiId : Nat) (msgs : List Message) :
    processFragments aiId [] msgs = (msgs, .finished) := rfl

lemma processFragments_cons_clean (aiId : Nat) (c : Str) (rest : List Str) (msgs : List Message)
    (hd : hasSubstr doneL c = false) (he : isPrefixL errL c = false) :
    processFragments aiId (c :: rest) msgs
      = processFragments aiId rest (appendToEntry aiId (stripEOT c) msgs) := by
  by_cases h1 : c.isEmpty
  · have hc : c = [] := by simpa using h1
    subst hc
    simp [processFragments, appendToEntry_nil_text, stripEOT, stripEOTAux]
  · simp only [processFragments, h1, hd, he, Bool.false_eq_true, if_false]
    by_cases h3 : (stripEOT c).isEmpty
    · have : stripEOT c = [] := by simpa using h3
      simp [h3, this, appendToEntry_nil_text]
    · simp [h3]

lemma processFragments_clean_front (aiId : Nat) (pre tail : List Str) (msgs : List Message)
    (h : ∀ c ∈ pre, hasSubstr doneL c = false ∧ isPrefixL errL c = false) :
    processFragments aiId (pre ++ tail) msgs
      = processFragments aiId tail (appendToEntry aiId ((pre.map stripEOT).flatten) msgs) := by
  induction pre generalizing msgs with
  | nil => simp [appendToEntry_nil_text]
  | cons c cs ih =>
    have hc := h c (List.mem_cons_self c cs)
    rw [List.cons_append, processFragments_cons_clean aiId c _ msgs hc.1 hc.2,
      ih _ fun x hx => h x (List.mem_cons_of_mem _ hx), appendToEntry_comp]
    simp

lemma processFragments_clean (aiId : Nat) (frags : List Str) (msgs : List Message)
    (h : ∀ c ∈ frags, hasSubstr doneL c = false ∧ isPrefixL errL c = false) :
    processFragments aiId frags msgs
      = (appendToEntry aiId ((frags.map stripEOT).flatten) msgs, .finished) := by
  have := processFragments_clean_front aiId frags [] msgs h
  simpa [processFragments_nil] using this

lemma processFragments_pres (aiId : Nat) (P : List Message → Prop)
    (hP : ∀ t msgs, P msgs → P (appendToEntry aiId t msgs)) :
    ∀ (frags : List Str) (msgs : List Message), P msgs → P (processFragments aiId frags msgs).1 := by
  intro frags
  induction frags with
  | nil => intro msgs h; exact h
  | cons c rest ih =>
    intro msgs h
    simp only [processFragments]
    split_ifs with h1 h2 h3 h4 h5
    · exact ih msgs h
    · exact h
    · exact h
    · exact hP _ _ h
    · exact ih msgs h
    · exact ih _ (hP _ _ h)

/-! Helper lemmas about the streaming-entry count. -/

lemma countStreaming_nil : countStreaming [] = 0 := rfl

lemma countStreaming_cons (m : Message) (ms : List Message) :
    countStreaming (m :: ms) = countStreaming ms + (if m.isStreaming then 1 else 0) := by
  by_cases h : m.isStreaming = true <;>
    simp [countStreaming, List.filter_cons, h, Nat.add_comm]

lemma countStreaming_append (l1 l2 : List Message) :
    countStreaming (l1 ++ l2) = countStreaming l1 + countStreaming l2 := by
  simp [countStreaming, List.filter_append]

lemma not_streaming_of_count_zero (msgs : List Message) (h : countStreaming msgs = 0)
    {m : Message} (hm : m ∈ msgs) : m.isStreaming = false := by
  by_contra hs
  rw [Bool.not_eq_false] at hs
  have h1 : m ∈ msgs.filter fun x => x.isStreaming := List.mem_filter.mpr ⟨hm, hs⟩
  rw [countStreaming, List.length_eq_zero] at h
  rw [h] at h1
  exact absurd h1 (List.not_mem_nil m)

lemma countStreaming_appendToEntry (aiId : Nat) (t : Str) (msgs : List Message) :
    countStreaming (appendToEntry aiId t msgs) = countStreaming msgs := by
  induction msgs with
  | nil => rfl
  | cons m ms ih =>
    rw [appendToEntry_cons, countStreaming_cons, countStreaming_cons, ih]
    by_cases hm : m.id = aiId
    · rw [if_pos hm]
    · rw [if_neg hm]

lemma streamOnly_appendToEntry (aiId : Nat) (t : Str) (msgs : List Message)
    (h : streamOnly aiId msgs) : streamOnly aiId (appendToEntry aiId t msgs) := by
  intro m hm hs
  rw [appendToEntry] at hm
  obtain ⟨m0, hm0, hf⟩ := List.mem_map.mp hm
  by_cases h0 : m0.id = aiId
  · rw [if_pos h0] at hf; subst hf; exact h0
  · rw [if_neg h0] at hf; subst hf; exact h m0 hm0 hs

lemma countStreaming_processFragments (aiId : Nat) (frags : List Str) (msgs : List Message) :
    countStreaming (processFragments aiId frags msgs).1 = countStreaming msgs :=
  processFragments_pres aiId (fun l => countStreaming l = countStreaming msgs)
    (fun t l hl => by
      show countStreaming (appendToEntry aiId t l) = countStreaming msgs
      rw [countStreaming_appendToEntry]; exact hl) frags msgs rfl

lemma streamOnly_processFragments (aiId : Nat) (frags : List Str) (msgs : List Message)
    (h : streamOnly aiId msgs) : streamOnly aiId (processFragments aiId frags msgs).1 :=
  processFragments_pres aiId (streamOnly aiId)
    (fun t l hl => streamOnly_appendToEntry aiId t l hl) frags msgs h

lemma countStreaming_filter_ne (aiId : Nat) (msgs : List Message) (h : streamOnly aiId msgs) :
    countStreaming (msgs.filter fun m => m.id != aiId) = 0 := by
  induction msgs with
  | nil => rfl
  | cons m ms ih =>
    have htail := ih fun x hx hs => h x (List.mem_cons_of_mem _ hx) hs
    rw [List.filter_cons]
    by_cases hm : (m.id != aiId) = true
    · rw [if_pos hm, countStreaming_cons, htail]
      by_cases hs : m.isStreaming = true
      · exact absurd (h m (List.mem_cons_self m ms) hs) (by simpa using hm)
      · rw [Bool.not_eq_true] at hs
        rw [hs]
        simp
    · rw [if_neg hm]
      exact htail

lemma countStreaming_finalize (aiId : Nat) (msgs : List Message) (h : streamOnly aiId msgs) :
    countStreaming (finalizeStreaming aiId msgs) = 0 := by
  induction msgs with
  | nil => rfl
  | cons m ms ih =>
    have htail := ih fun x hx hs => h x (List.mem_cons_of_mem _ hx) hs
    rw [finalizeStreaming_cons, countStreaming_cons, htail]
    by_cases hm : m.id = aiId
    · rw [if_pos hm]
      simp
    · rw [if_neg hm]
      by_cases hs : m.isStreaming = true
      · exact absurd (h m (List.mem_cons_self m ms) hs) hm
      · rw [Bool.not_eq_true] at hs
        rw [hs]
        simp

lemma countStreaming_submit (content : Str) (now : Nat) (st : ChatState) :
    countStreaming (submitState content now st).messages = countStreaming st.messages + 1 := by
  simp [submitState, countStreaming_append, mkUserMessage, mkAiMessage,
    countStreaming_cons, countStreaming_nil]

lemma streamOnly_submit (content : Str) (now : Nat) (st : ChatState)
    (h : countStreaming st.messages = 0) :
    streamOnly (now + 1) (submitState content now st).messages := by
  intro m hm hs
  rw [submitState] at hm
  simp only [List.mem_append, List.mem_cons, List.not_mem_nil, or_false] at hm
  rcases hm with hm | hm | hm
  · exact absurd hs (by rw [not_streaming_of_count_zero st.messages h hm]; simp)
  · subst hm; exact absurd hs (by simp [mkUserMessage])
  · subst hm; rfl

/-! Preservation of entries other than the in-flight assistant entry. -/

lemma filter_ne_appendToEntry (aiId : Nat) (t : Str) (msgs : List Message) :
    (appendToEntry aiId t msgs).filter (fun m => m.id != aiId)
      = msgs.filter fun m => m.id != aiId := by
  induction msgs with
  | nil => rfl
  | cons m ms ih =>
    rw [appendToEntry_cons]
    by_cases hm : m.id = aiId <;> simp [List.filter_cons, hm, ih]

lemma filter_ne_processFragments (aiId : Nat) (frags : List Str) (msgs : List Message) :
    ((processFragments aiId frags msgs).1).filter (fun m => m.id != aiId)
      = msgs.filter fun m => m.id != aiId :=
  processFragments_pres aiId
    (fun l => l.filter (fun m => m.id != aiId) = msgs.filter fun m => m.id != aiId)
    (fun t l hl => by
      show (appendToEntry aiId t l).filter (fun m => m.id != aiId)
        = msgs.filter fun m => m.id != aiId
      rw [filter_ne_appendToEntry]; exact hl) frags msgs rfl

lemma filter_ne_fresh (aiId : Nat) (msgs : List Message)
    (h : ∀ m ∈ msgs, m.id ≠ aiId) :
    msgs.filter (fun m => m.id != aiId) = msgs := by
  induction msgs with
  | nil => rfl
  | cons m ms ih =>
    rw [List.filter_cons]
    have h1 : (m.id != aiId) = true := by simp [h m (List.mem_cons_self m ms)]
    rw [h1]
    simp only [if_true]
    rw [ih fun x hx => h x (List.mem_cons_of_mem _ hx)]

/-! Path lemmas for streamAIResponse. -/

lemma streamAIResponse_failure (e : JsError) (aiId : Nat) (st : ChatState) :
    streamAIResponse (.failure e) aiId st = errorRecovery aiId e st := rfl

lemma streamAIResponse_not_ok (resp : StreamResponse) (aiId : Nat) (st : ChatState)
    (h : resp.ok = false) :
    streamAIResponse (.success resp) aiId st
      = errorRecovery aiId (.error (statusErrorMessage resp.status resp.statusText)) st := by
  simp only [streamAIResponse]
  rw [if_pos h]

lemma streamAIResponse_no_body (resp : StreamResponse) (aiId : Nat) (st : ChatState)
    (hok : resp.ok = true) (hb : resp.hasBody = false) :
    streamAIResponse (.success resp) aiId st
      = errorRecovery aiId (.error nullBodyMessage) st := by
  simp only [streamAIResponse]
  rw [if_neg (by simp [hok]), if_pos hb]

lemma streamAIResponse_finished (resp : StreamResponse) (aiId : Nat) (st : ChatState)
    (msgs : List Message) (hok : resp.ok = true) (hb : resp.hasBody = true)
    (hpf : processFragments aiId resp.fragments st.messages = (msgs, .finished)) :
    streamAIResponse (.success resp) aiId st
      = { st with messages := finalizeStreaming aiId msgs, isLoading := false } := by
  simp only [streamAIResponse]
  rw [if_neg (by simp [hok]), if_neg (by simp [hb]), hpf]

lemma streamAIResponse_errored (resp : StreamResponse) (aiId : Nat) (st : ChatState)
    (msgs : List Message) (m : Str) (hok : resp.ok = true) (hb : resp.hasBody = true)
    (hpf : processFragments aiId resp.fragments st.messages = (msgs, .errored m)) :
    streamAIResponse (.success resp) aiId st
      = errorRecovery aiId (.error m) { st with messages := msgs } := by
  simp only [streamAIResponse]
  rw [if_neg (by simp [hok]), if_neg (by simp [hb]), hpf]

/-! Invariant lemmas for reachable states. -/

lemma countStreaming_turn (content : Str) (now : Nat) (fr : FetchResult) (st : ChatState)
    (h : countStreaming st.messages = 0) :
    countStreaming (handleSendMessage content now fr st).messages = 0 := by
  have hso := streamOnly_submit content now st h
  rw [handleSendMessage]
  cases fr with
  | failure e =>
    rw [streamAIResponse_failure]
    exact countStreaming_filter_ne _ _ hso
  | success resp =>
    cases hok : resp.ok with
    | false =>
      rw [streamAIResponse_not_ok resp _ _ hok]
      exact countStreaming_filter_ne _ _ hso
    | true =>
      cases hb : resp.hasBody with
      | false =>
        rw [streamAIResponse_no_body resp _ _ hok hb]
        exact countStreaming_filter_ne _ _ hso
      | true =>
        rcases hpf : processFragments (now + 1) resp.fragments
            (submitState content now st).messages with ⟨ms2, r⟩
        have hso2 : streamOnly (now + 1) ms2 := by
          have h2 := streamOnly_processFragments (now + 1) resp.fragments
            (submitState content now st).messages hso
          rw [hpf] at h2
          exact h2
        cases r with
        | finished =>
          rw [streamAIResponse_finished resp _ _ ms2 hok hb hpf]
          exact countStreaming_finalize _ _ hso2
        | errored m =>
          rw [streamAIResponse_errored resp _ _ ms2 m hok hb hpf]
          exact countStreaming_filter_ne _ _ hso2

lemma reachable_count_zero {st : ChatState} (h : Reachable st) :
    countStreaming st.messages = 0 := by
  induction h with
  | init => rfl
  | send input now fr hr ih =>
    rw [handleSend]
    split_ifs with hg
    · exact countStreaming_turn _ _ _ _ ih
    · exact ih
  | suggestion q now fr hr hemp ih => exact countStreaming_turn _ _ _ _ ih
  | clear hr ih => rfl

lemma reachableLog_le_one {msgs : List Message} (h : ReachableLog msgs) :
    countStreaming msgs ≤ 1 := by
  cases h with
  | boundary hr =>
    rw [reachable_count_zero hr]
    omega
  | midSubmit content now hr =>
    rw [countStreaming_submit, reachable_count_zero hr]
  | midStream content now frags k hr =>
    rw [countStreaming_processFragments, countStreaming_submit, reachable_count_zero hr]

/-! The two appended entries under the in-flight updates. -/

lemma appendToEntry_pair (now : Nat) (content t : Str) :
    appendToEntry (now + 1) t [mkUserMessage now content, mkAiMessage now]
      = [mkUserMessage now content, ⟨now + 1, t, false, true⟩] := by
  have h1 : ¬((mkUserMessage now content).id = now + 1) := by
    simp [mkUserMessage]
  simp [appendToEntry, mkUserMessage, mkAiMessage] at h1 ⊢

lemma finalizeStreaming_pair (now : Nat) (content t : Str) :
    finalizeStreaming (now + 1) [mkUserMessage now content, (⟨now + 1, t, false, true⟩ : Message)]
      = [mkUserMessage now content, ⟨now + 1, t, false, false⟩] := by
  simp [finalizeStreaming, mkUserMessage]

lemma processFragments_done (aiId : Nat) (pre : List Str) (c : Str) (rest : List Str)
    (msgs : List Message)
    (hc : hasSubstr doneL c = true)
    (hpre : ∀ x ∈ pre, hasSubstr doneL x = false ∧ isPrefixL errL x = false) :
    processFragments aiId (pre ++ c :: rest) msgs
      = (appendToEntry aiId ((pre.map stripEOT).flatten) msgs, .finished) := by
  rw [processFragments_clean_front aiId pre (c :: rest) msgs hpre]
  have hce : c.isEmpty = false := by
    cases c with
    | nil => simp [hasSubstr, doneL] at hc
    | cons a as => rfl
  simp [processFragments, hce, hc]

lemma handleSendMessage_finished (content : Str) (now : Nat) (resp : StreamResponse)
    (st : ChatState) (t : Str) (hok : resp.ok = true) (hb : resp.hasBody = true)
    (hpf : processFragments (now + 1) resp.fragments (submitState content now st).messages
      = (appendToEntry (now + 1) t (submitState content now st).messages, .finished))
    (hfresh : ∀ m ∈ st.messages, m.id ≠ now + 1) :
    (handleSendMessage content now (.success resp) st).messages
      = st.messages ++ [mkUserMessage now content, ⟨now + 1, t, false, false⟩] := by
  rw [handleSendMessage, streamAIResponse_finished resp _ _ _ hok hb hpf]
  show finalizeStreaming (now + 1)
    (appendToEntry (now + 1) t (st.messages ++ [mkUserMessage now content, mkAiMessage now])) = _
  rw [appendToEntry_append, appendToEntry_fresh _ _ _ hfresh, appendToEntry_pair,
    finalizeStreaming_append, finalizeStreaming_fresh _ _ hfresh, finalizeStreaming_pair]

/-! Claim theorems. -/

/-- Claim C1, counterexample: the original claim says the typewriter reveal
length is monotonically non-decreasing over tick and text-arrival events and
that the reveal position does not restart from zero when more text arrives.
It is false: after one tick on streaming text "ab" the reveal length is 1,
but when the text extends to "abc" the props effect resets the displayed
text to empty and the reveal index to 0. -/
theorem C1_reveal_resets :
    (twTick "ab".toList true false (twOnProps "ab".toList true false ⟨[], 0⟩)).displayedText.length = 1
    ∧ (twOnProps "abc".toList true false
        (twTick "ab".toList true false (twOnProps "ab".toList true false ⟨[], 0⟩))).displayedText.length = 0
    ∧ (twOnProps "abc".toList true false
        (twTick "ab".toList true false (twOnProps "ab".toList true false ⟨[], 0⟩))).currentIndex = 0 := by
  decide

/-- Claim C1 (amended): for a fixed accumulated text, each timer tick keeps
the reveal length non-decreasing, never exceeding the text length, and keeps
the displayed text a prefix of the text; the props effect never reveals more
than the text; but when text arrives during streaming the props effect
resets the reveal to zero, restarting the animation (contrary to the
original claim); and once streaming is false a tick changes nothing. -/
theorem C1_typewriter (m : Str) (u v : Bool) (s : TWState)
    (h : s.displayedText = m.take s.currentIndex) :
    ((s.displayedText.length ≤ (twTick m true false s).displayedText.length
        ∧ (twTick m true false s).displayedText.length ≤ m.length)
      ∧ (twTick m true false s).displayedText
          = m.take (twTick m true false s).currentIndex)
    ∧ (twOnProps m v u s).displayedText.length ≤ m.length
    ∧ twOnProps m true false s = ⟨[], 0⟩
    ∧ twTick m false u s = s := by
  refine ⟨⟨⟨?_, ?_⟩, ?_⟩, ?_, ?_, ?_⟩
  · rw [twTick]
    split_ifs with hc
    · rw [h]
      simp only [List.length_take]
      omega
    · exact Nat.le_refl _
  · rw [twTick]
    split_ifs with hc
    · simp only [List.length_take]
      omega
    · rw [h]
      simp only [List.length_take]
      omega
  · rw [twTick]
    split_ifs with hc
    · rfl
    · exact h
  · rw [twOnProps]
    split_ifs with hc
    · simp
    · simp
  · rw [twOnProps, if_pos ⟨rfl, rfl⟩]
  · rw [twTick, if_neg]
    intro hc
    exact absurd hc.1 (by simp)

/-- Claim C1, witness: the amended typewriter theorem applied to the state
with one character of "ab" revealed. -/
theorem C1_typewriter_witness :
    twOnProps "ab".toList true false ⟨"a".toList, 1⟩ = ⟨[], 0⟩ :=
  (C1_typewriter "ab".toList true true ⟨"a".toList, 1⟩ (by decide)).2.2.1

/-- Claim C2, counterexample: with fragments ["partial",
"ERROR: upstream crashed"] the in-flight assistant entry has non-empty text
when the turn aborts, yet it is removed from the log instead of being kept
and finalized with an error marker. -/
theorem C2_nonempty_entry_removed :
    handleSendMessage "hi".toList 0
        (.success ⟨true, 200, [], true, ["partial".toList, "ERROR: upstream crashed".toList]⟩)
        initialState
      = ⟨[⟨0, "hi".toList, true, false⟩], false, ["upstream crashed".toList]⟩
    ∧ messagesAtError 1
        (.success ⟨true, 200, [], true, ["partial".toList, "ERROR: upstream crashed".toList]⟩)
        (submitState "hi".toList 0 initialState).messages
      = [⟨0, "hi".toList, true, false⟩,
          ⟨1, "partialERROR: upstream crashed".toList, false, true⟩] := by
  constructor
  · decide
  · decide

/-- Claim C2 (amended): for every turn that ends with a transport or
upstream error, the in-flight assistant entry is removed from the
conversation log regardless of whether its text is empty, and exactly one
user-visible error notification is surfaced. -/
theorem C2_error_discards_entry (aiId : Nat) (fr : FetchResult) (st : ChatState)
    (herr : turnErrors aiId st.messages fr = true) :
    (streamAIResponse fr aiId st).messages
      = (messagesAtError aiId fr st.messages).filter (fun m => m.id != aiId)
    ∧ (streamAIResponse fr aiId st).toasts.length = st.toasts.length + 1 := by
  cases fr with
  | failure e =>
    rw [streamAIResponse_failure]
    exact ⟨rfl, by simp [errorRecovery]⟩
  | success resp =>
    cases hok : resp.ok with
    | false =>
      rw [streamAIResponse_not_ok resp _ _ hok]
      refine ⟨?_, by simp [errorRecovery]⟩
      simp [messagesAtError, hok, errorRecovery]
    | true =>
      cases hb : resp.hasBody with
      | false =>
        rw [streamAIResponse_no_body resp _ _ hok hb]
        refine ⟨?_, by simp [errorRecovery]⟩
        simp [messagesAtError, hok, hb, errorRecovery]
      | true =>
        rcases hpf : processFragments aiId resp.fragments st.messages with ⟨ms2, r⟩
        cases r with
        | finished =>
          exfalso
          simp [turnErrors, hok, hb, hpf] at herr
        | errored m =>
          rw [streamAIResponse_errored resp _ _ ms2 m hok hb hpf]
          refine ⟨?_, by simp [errorRecovery]⟩
          simp [messagesAtError, hok, hb, hpf, errorRecovery]

/-- Claim C2, witness: the amended theorem applied to a transport failure
hitting a log that carries a non-empty in-flight assistant entry. -/
theorem C2_error_discards_entry_witness :
    (streamAIResponse (.failure (.error "boom".toList)) 1
        ⟨[⟨1, "part".toList, false, true⟩], true, []⟩).messages
      = (messagesAtError 1 (.failure (.error "boom".toList))
          [⟨1, "part".toList, false, true⟩]).filter (fun m => m.id != 1)
    ∧ (streamAIResponse (.failure (.error "boom".toList)) 1
        ⟨[⟨1, "part".toList, false, true⟩], true, []⟩).toasts.length
      = ([] : List Str).length + 1 :=
  C2_error_discards_entry 1 (.failure (.error "boom".toList))
    ⟨[⟨1, "part".toList, false, true⟩], true, []⟩ (by decide)

/-- Claim C3: for a fragment sequence with no [DONE] and no ERROR: fragment,
the turn completes normally and the final assistant entry text is the
concatenation, in arrival order, of the fragments with every end-of-text
sentinel removed; fragments whose cleaned residue is empty contribute
nothing. -/
theorem C3_final_text_is_concat (content : Str) (now : Nat) (resp : StreamResponse)
    (st : ChatState) (hok : resp.ok = true) (hb : resp.hasBody = true)
    (hclean : ∀ c ∈ resp.fragments, hasSubstr doneL c = false ∧ isPrefixL errL c = false)
    (hfresh : ∀ m ∈ st.messages, m.id ≠ now + 1) :
    (handleSendMessage content now (.success resp) st).messages
      = st.messages ++ [mkUserMessage now content,
          ⟨now + 1, (resp.fragments.map stripEOT).flatten, false, false⟩] :=
  handleSendMessage_finished content now resp st _ hok hb
    (processFragments_clean (now + 1) resp.fragments _ hclean) hfresh

/-- Claim C3, witness: fragments with a sentinel in the middle and an empty
fragment concatenate to "abc". -/
theorem C3_final_text_is_concat_witness :
    (handleSendMessage "q".toList 3
        (.success ⟨true, 200, [], true, ["a<|endoftext|>b".toList, [], "c".toList]⟩)
        initialState).messages
      = initialState.messages ++ [mkUserMessage 3 "q".toList,
          ⟨4, ((["a<|endoftext|>b".toList, [], "c".toList] : List Str).map stripEOT).flatten,
            false, false⟩]
    ∧ ((["a<|endoftext|>b".toList, [], "c".toList] : List Str).map stripEOT).flatten
        = "abc".toList :=
  ⟨C3_final_text_is_concat "q".toList 3
      ⟨true, 200, [], true, ["a<|endoftext|>b".toList, [], "c".toList]⟩
      initialState rfl rfl (by decide) (by decide),
    by decide⟩

/-- Claim C4, counterexample: for fragment "ERROR:foo" the surfaced message
is "oo", not "foo" (the code drops seven characters, one past the "ERROR:"
marker); the sanitized fragment text is appended to the assistant entry
before the error check runs; and a fragment beginning with ERROR: that also
contains [DONE] terminates the stream normally instead of aborting. -/
theorem C4_slice_and_order :
    (streamAIResponse (.success ⟨true, 200, [], true, ["ERROR:foo".toList]⟩) 1
        ⟨[⟨1, [], false, true⟩], true, []⟩).toasts = ["oo".toList]
    ∧ (processFragments 1 ["ERROR:foo".toList] [⟨1, [], false, true⟩]).1
        = [⟨1, "ERROR:foo".toList, false, true⟩]
    ∧ (processFragments 1 ["ERROR:[DONE]x".toList] [⟨1, [], false, true⟩]).2
        = .finished := by
  refine ⟨?_, ?_, ?_⟩ <;> decide

/-- Claim C4 (amended): a fragment beginning with ERROR: and not containing
[DONE] aborts the turn carrying the fragment minus its first seven
characters as message (the remainder after "ERROR:" plus one further
character, which equals the intended message only when a separator follows
the colon); the cleaned fragment text is appended to the assistant entry
before the error check, but the error handling then removes the whole
entry, so no text from the fragment remains in the final log, and the toast
carries the same seven-character-truncated message. -/
theorem C4_upstream_error (aiId : Nat) (c : Str) (rest : List Str) (stat : Nat)
    (stext : Str) (st : ChatState)
    (herr : isPrefixL errL c = true) (hnd : hasSubstr doneL c = false) :
    processFragments aiId (c :: rest) st.messages
      = ((if (stripEOT c).isEmpty then st.messages
          else appendToEntry aiId (stripEOT c) st.messages), .errored (c.drop 7))
    ∧ (streamAIResponse (.success ⟨true, stat, stext, true, c :: rest⟩) aiId st).messages
      = ((processFragments aiId (c :: rest) st.messages).1).filter (fun m => m.id != aiId)
    ∧ (streamAIResponse (.success ⟨true, stat, stext, true, c :: rest⟩) aiId st).toasts
      = st.toasts ++ [c.drop 7] := by
  have hce : c.isEmpty = false := by
    cases c with
    | nil => simp [isPrefixL, errL] at herr
    | cons a as => rfl
  have hstep : processFragments aiId (c :: rest) st.messages
      = ((if (stripEOT c).isEmpty then st.messages
          else appendToEntry aiId (stripEOT c) st.messages), .errored (c.drop 7)) := by
    simp only [processFragments, hce, hnd, herr, Bool.false_eq_true, if_false, if_true]
  refine ⟨hstep, ?_, ?_⟩
  · rw [streamAIResponse_errored _ _ _ _ _ rfl rfl hstep, hstep]
    rfl
  · rw [streamAIResponse_errored _ _ _ _ _ rfl rfl hstep]
    rfl

/-- Claim C4, witness: the amended theorem applied to the fragment
"ERROR: hm" followed by an unprocessed fragment. -/
theorem C4_upstream_error_witness :
    processFragments 2 ("ERROR: hm".toList :: ["x".toList]) ([⟨2, [], false, true⟩] : List Message)
      = ((if (stripEOT "ERROR: hm".toList).isEmpty then ([⟨2, [], false, true⟩] : List Message)
          else appendToEntry 2 (stripEOT "ERROR: hm".toList) [⟨2, [], false, true⟩]),
          .errored ("ERROR: hm".toList.drop 7))
    ∧ (streamAIResponse (.success ⟨true, 200, [], true, "ERROR: hm".toList :: ["x".toList]⟩) 2
        ⟨[⟨2, [], false, true⟩], true, []⟩).messages
      = ((processFragments 2 ("ERROR: hm".toList :: ["x".toList]) [⟨2, [], false, true⟩]).1).filter
          (fun m => m.id != 2)
    ∧ (streamAIResponse (.success ⟨true, 200, [], true, "ERROR: hm".toList :: ["x".toList]⟩) 2
        ⟨[⟨2, [], false, true⟩], true, []⟩).toasts
      = ([] : List Str) ++ ["ERROR: hm".toList.drop 7] :=
  C4_upstream_error 2 "ERROR: hm".toList ["x".toList] 200 [] ⟨[⟨2, [], false, true⟩], true, []⟩
    (by decide) (by decide)

/-- Claim C5: a fragment equal to [DONE], at any position after cleanly
processed fragments, terminates the turn: nothing from it is appended, the
fragments after it are not processed, and the final assistant entry carries
the concatenation of the cleaned earlier fragments with streaming=false. -/
theorem C5_done_terminates (content : Str) (now stat : Nat) (stext : Str)
    (pre rest : List Str) (st : ChatState)
    (hpre : ∀ c ∈ pre, hasSubstr doneL c = false ∧ isPrefixL errL c = false)
    (hfresh : ∀ m ∈ st.messages, m.id ≠ now + 1) :
    (handleSendMessage content now
        (.success ⟨true, stat, stext, true, pre ++ doneL :: rest⟩) st).messages
      = st.messages ++ [mkUserMessage now content,
          ⟨now + 1, (pre.map stripEOT).flatten, false, false⟩] :=
  handleSendMessage_finished content now _ st _ rfl rfl
    (processFragments_done (now + 1) pre doneL rest _ (by decide) hpre) hfresh

/-- Claim C5, witness: the spec scenario ["Hel", "lo, ", "world", "[DONE]"]
yields final assistant text "Hello, world" with streaming off. -/
theorem C5_done_terminates_witness :
    (handleSendMessage "hi".toList 0
        (.success ⟨true, 200, [], true,
          ["Hel".toList, "lo, ".toList, "world".toList] ++ doneL :: []⟩)
        initialState).messages
      = initialState.messages ++ [mkUserMessage 0 "hi".toList,
          ⟨1, ((["Hel".toList, "lo, ".toList, "world".toList] : List Str).map stripEOT).flatten,
            false, false⟩]
    ∧ ((["Hel".toList, "lo, ".toList, "world".toList] : List Str).map stripEOT).flatten
        = "Hello, world".toList :=
  ⟨C5_done_terminates "hi".toList 0 200 [] ["Hel".toList, "lo, ".toList, "world".toList] []
      initialState (by decide) (by decide),
    by decide⟩

/-- Claim C6: at every reachable conversation log (turn boundaries as well
as mid-turn instants after the submit appends or after any prefix of the
fragments) at most one entry has streaming=true, and submitting while a turn
is loading leaves the state, in particular the conversation log, unchanged. -/
theorem C6_single_streaming :
    (∀ msgs, ReachableLog msgs → countStreaming msgs ≤ 1)
    ∧ ∀ (input : Str) (now : Nat) (fr : FetchResult) (st : ChatState),
        st.isLoading = true → handleSend input now fr st = st := by
  constructor
  · intro msgs h
    exact reachableLog_le_one h
  · intro input now fr st h
    simp [handleSend, h]

/-- Claim C6, witness: the invariant at the initial log, and a blocked
submission on a loading state. -/
theorem C6_single_streaming_witness :
    countStreaming initialState.messages ≤ 1
    ∧ handleSend "x".toList 0 (.failure (.error [])) ⟨[], true, []⟩ = ⟨[], true, []⟩ :=
  ⟨C6_single_streaming.1 initialState.messages (ReachableLog.boundary Reachable.init),
    C6_single_streaming.2 "x".toList 0 (.failure (.error [])) ⟨[], true, []⟩ rfl⟩

/-- Claim C7: from an idle state, a submission whose trimmed input is empty
changes nothing, and a submission with non-empty trimmed input appends
exactly two entries in order, the user entry carrying the trimmed text and
then the assistant entry with empty text and streaming=true, after which the
request is issued on the resulting state. -/
theorem C7_submit (input : Str) (now : Nat) (fr : FetchResult) (st : ChatState)
    (hIdle : st.isLoading = false) :
    ((trim input).isEmpty = true → handleSend input now fr st = st)
    ∧ ((trim input).isEmpty = false →
        handleSend input now fr st
          = streamAIResponse fr (now + 1)
              { st with messages := st.messages
                  ++ [⟨now, trim input, true, false⟩, ⟨now + 1, [], false, true⟩] }) := by
  constructor
  · intro he
    have hc : ¬((trim input).isEmpty = false ∧ st.isLoading = false) := by simp [he]
    show (if (trim input).isEmpty = false ∧ st.isLoading = false then
        handleSendMessage (trim input) now fr st else st) = st
    rw [if_neg hc]
  · intro hne
    show (if (trim input).isEmpty = false ∧ st.isLoading = false then
        handleSendMessage (trim input) now fr st else st) = _
    rw [if_pos ⟨hne, hIdle⟩]
    rfl

/-- Claim C7, witness: a whitespace-only submission is a no-op and the
submission " hi " proceeds with the trimmed text. -/
theorem C7_submit_witness :
    handleSend "   ".toList 0 (.failure (.error [])) initialState = initialState
    ∧ handleSend " hi ".toList 0 (.failure (.error [])) initialState
        = streamAIResponse (.failure (.error [])) 1
            { initialState with messages := initialState.messages
                ++ [⟨0, trim " hi ".toList, true, false⟩, ⟨1, [], false, true⟩] } :=
  ⟨(C7_submit "   ".toList 0 (.failure (.error [])) initialState rfl).1 (by decide),
    (C7_submit " hi ".toList 0 (.failure (.error [])) initialState rfl).2 (by decide)⟩

/-- Claim C8: a response with non-success status fails the turn with the
status error message, with no fragment appended (the log is only filtered),
and every path of streamAIResponse ends with loading disabled; every error
recovery re-enables input and surfaces exactly one notification. -/
theorem C8_status_error (resp : StreamResponse) (aiId : Nat) (st : ChatState)
    (hbad : resp.ok = false) :
    streamAIResponse (.success resp) aiId st
      = { messages := st.messages.filter fun m => m.id != aiId
          isLoading := false
          toasts := st.toasts ++ [statusErrorMessage resp.status resp.statusText] }
    ∧ (∀ (fr : FetchResult) (s : ChatState), (streamAIResponse fr aiId s).isLoading = false)
    ∧ ∀ (e : JsError) (s : ChatState),
        (errorRecovery aiId e s).isLoading = false
        ∧ (errorRecovery aiId e s).toasts = s.toasts ++ [recoveryMessage e] := by
  refine ⟨?_, ?_, ?_⟩
  · rw [streamAIResponse_not_ok resp aiId st hbad]
    rfl
  · intro fr s
    cases fr with
    | failure e => rfl
    | success r =>
      cases hok : r.ok with
      | false =>
        rw [streamAIResponse_not_ok r aiId s hok]
        rfl
      | true =>
        cases hb : r.hasBody with
        | false =>
          rw [streamAIResponse_no_body r aiId s hok hb]
          rfl
        | true =>
          rcases hpf : processFragments aiId r.fragments s.messages with ⟨ms2, rr⟩
          cases rr with
          | finished => rw [streamAIResponse_finished r aiId s ms2 hok hb hpf]
          | errored m =>
            rw [streamAIResponse_errored r aiId s ms2 m hok hb hpf]
            rfl
  · intro e s
    exact ⟨rfl, rfl⟩

/-- Claim C8, witness: a 404 response before any bytes are read surfaces the
status message and removes only the in-flight entry. -/
theorem C8_status_error_witness :
    (streamAIResponse (.success ⟨false, 404, "Not Found".toList, true, []⟩) 1
        ⟨[⟨1, [], false, true⟩], true, []⟩
      = { messages := ([⟨1, [], false, true⟩] : List Message).filter fun m => m.id != 1
          isLoading := false
          toasts := ([] : List Str) ++ [statusErrorMessage 404 "Not Found".toList] })
    ∧ statusErrorMessage 404 "Not Found".toList
        = "Server responded with status: 404 Not Found".toList :=
  ⟨(C8_status_error ⟨false, 404, "Not Found".toList, true, []⟩ 1
      ⟨[⟨1, [], false, true⟩], true, []⟩ rfl).1,
    by decide⟩

/-- Claim C9: a fragment containing [DONE] along with other content,
arriving after cleanly processed fragments, terminates the stream normally
and none of that fragment's content, before or after the marker, is ever
appended: the resulting log is exactly the earlier cleaned concatenation
appended to the assistant entry, and the fragments after it are not
processed. -/
theorem C9_done_content_discarded (aiId : Nat) (pre : List Str) (c : Str) (rest : List Str)
    (msgs : List Message)
    (hc : hasSubstr doneL c = true)
    (hpre : ∀ x ∈ pre, hasSubstr doneL x = false ∧ isPrefixL errL x = false) :
    processFragments aiId (pre ++ c :: rest) msgs
      = (appendToEntry aiId ((pre.map stripEOT).flatten) msgs, .finished) :=
  processFragments_done aiId pre c rest msgs hc hpre

/-- Claim C9, witness: the fragment "abc[DONE]def" ends the stream and
contributes nothing; only the earlier fragment "x" was appended. -/
theorem C9_done_content_discarded_witness :
    processFragments 1 (["x".toList] ++ "abc[DONE]def".toList :: ["y".toList])
        ([⟨1, [], false, true⟩] : List Message)
      = (appendToEntry 1 (((["x".toList] : List Str).map stripEOT).flatten)
          [⟨1, [], false, true⟩], .finished)
    ∧ appendToEntry 1 (((["x".toList] : List Str).map stripEOT).flatten)
        ([⟨1, [], false, true⟩] : List Message)
      = [⟨1, "x".toList, false, true⟩] :=
  ⟨C9_done_content_discarded 1 ["x".toList] "abc[DONE]def".toList ["y".toList]
      [⟨1, [], false, true⟩] (by decide) (by decide),
    by decide⟩

/-- Claim C10: when a turn ends in an error, every entry other than the
in-flight assistant entry survives unchanged: the final log is exactly the
previous log followed by the new user entry, with every text, author and
streaming flag intact. -/
theorem C10_error_frame (content : Str) (now : Nat) (fr : FetchResult) (st : ChatState)
    (hfresh : ∀ m ∈ st.messages, m.id ≠ now + 1)
    (herr : turnErrors (now + 1) (submitState content now st).messages fr = true) :
    (handleSendMessage content now fr st).messages
      = st.messages ++ [mkUserMessage now content] := by
  have hfs : (submitState content now st).messages.filter (fun m => m.id != now + 1)
      = st.messages ++ [mkUserMessage now content] := by
    show (st.messages ++ [mkUserMessage now content, mkAiMessage now]).filter _ = _
    rw [List.filter_append, filter_ne_fresh _ _ hfresh]
    congr 1
    have h1 : ((mkUserMessage now content).id != now + 1) = true := by
      simp [mkUserMessage]
    have h2 : ((mkAiMessage now).id != now + 1) = false := by
      simp [mkAiMessage]
    simp [List.filter_cons, h1, h2]
  rw [handleSendMessage]
  cases fr with
  | failure e =>
    rw [streamAIResponse_failure]
    exact hfs
  | success resp =>
    cases hok : resp.ok with
    | false =>
      rw [streamAIResponse_not_ok resp _ _ hok]
      exact hfs
    | true =>
      cases hb : resp.hasBody with
      | false =>
        rw [streamAIResponse_no_body resp _ _ hok hb]
        exact hfs
      | true =>
        rcases hpf : processFragments (now + 1) resp.fragments
            (submitState content now st).messages with ⟨ms2, r⟩
        cases r with
        | finished =>
          exfalso
          simp [turnErrors, hok, hb, hpf] at herr
        | errored m =>
          rw [streamAIResponse_errored resp _ _ ms2 m hok hb hpf]
          have h3 := filter_ne_processFragments (now + 1) resp.fragments
            (submitState content now st).messages
          rw [hpf] at h3
          exact h3.trans hfs

/-- Claim C10, witness: a transport failure on a turn over a log with one
earlier entry keeps that entry and the new user entry intact. -/
theorem C10_error_frame_witness :
    (handleSendMessage "hi".toList 3 (.failure (.error "x".toList))
        ⟨[⟨9, "old".toList, false, false⟩], false, []⟩).messages
      = [⟨9, "old".toList, false, false⟩] ++ [mkUserMessage 3 "hi".toList] :=
  C10_error_frame "hi".toList 3 (.failure (.error "x".toList))
    ⟨[⟨9, "old".toList, false, false⟩], false, []⟩ (by decide) (by decide)

end CoreOutline
